import Mathlib

/-!
Verification development for the log-signal-processor repository.

The Go sources are shallowly embedded: Go strings become Lean `String`
values together with their UTF-8 byte lists (Go indexes strings by byte),
Go `interface{}` values become the `GoValue` inductive, Go maps become
association lists, fallible functions return `Except`/pairs with an
`Option String` error component, and the process-wide random sources are
made explicit (a byte list for `crypto/rand`, a drawn number for
`math/rand`).
-/

/-- UTF-8 encoding of a single character, as the list of its byte values.
This mirrors what Go produces for `[]byte(string)` and `s[i]`. -/
def charUTF8 (c : Char) : List Nat :=
  let n := c.toNat
  if n < 0x80 then [n]
  else if n < 0x800 then [0xC0 + n / 64, 0x80 + n % 64]
  else if n < 0x10000 then
    [0xE0 + n / 4096, 0x80 + (n / 64) % 64, 0x80 + n % 64]
  else
    [0xF0 + n / 262144, 0x80 + (n / 4096) % 64, 0x80 + (n / 64) % 64, 0x80 + n % 64]

/-- The UTF-8 bytes of a string: Go's byte view of `string`
(`len(s)` and `s[i]` act on this list). -/
def strBytes (s : String) : List Nat :=
  s.data.foldr (fun c acc => charUTF8 c ++ acc) []

/-- The sequence of Unicode code points (Go runes) of a string. -/
def strRunes (s : String) : List Nat :=
  s.data.map Char.toNat

/-- The Go `min` helper from levenshtein.go: minimum of three integers. -/
def min3 (a b c : Nat) : Nat :=
  if a < b then (if a < c then a else c)
  else (if b < c then b else c)

/-- The dynamic-programming table of `levenshteinDistance` (levenshtein.go):
`levMatrix s1 s2 i j` is `matrix[i][j]`, with `matrix[i][0] = i`,
`matrix[0][j] = j`, and the interior cell the minimum of deletion,
insertion and substitution, where the substitution cost is `0` iff
`s1[i-1] == s2[j-1]`. -/
def levMatrix (s1 s2 : List Nat) : Nat → Nat → Nat
  | i, 0 => i
  | 0, j + 1 => j + 1
  | i + 1, j + 1 =>
    min3 (levMatrix s1 s2 i (j + 1) + 1)
      (levMatrix s1 s2 (i + 1) j + 1)
      (levMatrix s1 s2 i j + (if s1.getD i 0 = s2.getD j 0 then 0 else 1))
termination_by i j => (i, j)

/-- Fuel-indexed evaluator for `levMatrix`; with fuel at least `i + j` it
agrees with `levMatrix` and, being structurally recursive, it reduces in
the kernel. -/
def levMatrixF (s1 s2 : List Nat) : Nat → Nat → Nat → Nat
  | _, i, 0 => i
  | _, 0, j + 1 => j + 1
  | 0, _ + 1, _ + 1 => 0
  | f + 1, i + 1, j + 1 =>
    min3 (levMatrixF s1 s2 f i (j + 1) + 1)
      (levMatrixF s1 s2 f (i + 1) j + 1)
      (levMatrixF s1 s2 f i j + (if s1.getD i 0 = s2.getD j 0 then 0 else 1))

/-- `levenshteinDistance` from levenshtein.go, over byte lists: early
returns for an empty side, otherwise the bottom-right cell of the DP
matrix. -/
def levListDistance (s1 s2 : List Nat) : Nat :=
  if s1.length = 0 then s2.length
  else if s2.length = 0 then s1.length
  else levMatrix s1 s2 s1.length s2.length

/-- `levenshteinDistance(s1, s2 string)`: Go strings are indexed by byte,
so the distance is computed over the UTF-8 byte lists. -/
def levenshteinDistance (s1 s2 : String) : Nat :=
  levListDistance (strBytes s1) (strBytes s2)

/-- A Go `interface{}` value, as it appears in raw log records and in the
`Before`/`After` maps: a string, a string slice, a `time.Time` (abstracted
to an instant number), a `map[string]interface{}` (association list with
unique keys, first binding wins), or any other dynamic value. -/
inductive GoValue where
  | vStr : String → GoValue
  | vStrList : List String → GoValue
  | vTime : Nat → GoValue
  | vMap : List (String × GoValue) → GoValue
  | vOther : GoValue

/-- Go map indexing `m[k]`: the value bound to `k`, if any. -/
def mapGet (m : List (String × GoValue)) (k : String) : Option GoValue :=
  match m with
  | [] => none
  | (k0, v) :: rest => if k0 = k then some v else mapGet rest k

/-- Go type assertion `v.(string)` with its `ok` flag: `some` iff the
dynamic value is a string. A missing map entry (`none`) asserts to `nil`,
which is not a string. -/
def asStringOpt : Option GoValue → Option String
  | some (.vStr s) => some s
  | _ => none

/-- Go `v, _ := m[k].(string)`: the string there, or the zero value. -/
def getString (m : List (String × GoValue)) (k : String) : String :=
  (asStringOpt (mapGet m k)).getD ""

/-- Go `v, _ := m[k].([]string)`: the string slice there, or nil. -/
def getStrList (m : List (String × GoValue)) (k : String) : List String :=
  match mapGet m k with
  | some (.vStrList l) => l
  | _ => []

/-- Go `v, _ := m[k].(time.Time)`: the instant there, or the zero time. -/
def getTime (m : List (String × GoValue)) (k : String) : Nat :=
  match mapGet m k with
  | some (.vTime t) => t
  | _ => 0

/-- Go `v, _ := m[k].(map[string]interface\x7b\x7d)`: the nested map, or nil. -/
def getMap (m : List (String × GoValue)) (k : String) : List (String × GoValue) :=
  match mapGet m k with
  | some (.vMap mm) => mm
  | _ => []

/-- `LogData` (logprocessor): the canonical change record. -/
structure LogData where
  Operation : String
  Table : String
  RowIdentifier : String
  Columns : List String
  Timestamp : Nat
  Before : List (String × GoValue)
  After : List (String × GoValue)

/-- The concrete `SignalGenerator` implementations of the repository:
`FieldLevenshteinGenerator` (levenshtein.go) and `EntropyChangeGenerator`
(entropy.go), each holding its target field name. -/
inductive SignalGenerator where
  | fieldLevenshtein : String → SignalGenerator
  | entropyChange : String → SignalGenerator

/-- The `FieldName` configuration of a generator. -/
def genField : SignalGenerator → String
  | .fieldLevenshtein f => f
  | .entropyChange f => f

/-- `calculateEntropy` (entropy.go): 0 for the empty string; otherwise
minus the sum, over the distinct runes of the string, of `p * log2 p`,
where `p` is the rune count divided by `float64(len(s))` — note that Go's
`len(s)` is the byte length of the string, not its rune count. -/
noncomputable def calculateEntropy (s : String) : ℝ :=
  if s = "" then 0
  else
    -((s.data.dedup.map (fun r =>
        ((s.data.count r : ℝ) / ((strBytes s).length : ℝ)) *
          Real.logb 2 ((s.data.count r : ℝ) / ((strBytes s).length : ℝ)))).sum)

/-- `GenerateSignal` for each generator: if both `Before[FieldName]` and
`After[FieldName]` are present and are strings, the Levenshtein distance
(resp. the entropy delta `after − before`); otherwise `0.0`. -/
noncomputable def GenerateSignal : SignalGenerator → LogData → ℝ
  | .fieldLevenshtein f, logData =>
    match asStringOpt (mapGet logData.Before f), asStringOpt (mapGet logData.After f) with
    | some beforeVal, some afterVal => (levenshteinDistance beforeVal afterVal : ℝ)
    | _, _ => 0
  | .entropyChange f, logData =>
    match asStringOpt (mapGet logData.Before f), asStringOpt (mapGet logData.After f) with
    | some beforeVal, some afterVal => calculateEntropy afterVal - calculateEntropy beforeVal
    | _, _ => 0

/-- `SignalProcessor`: the ordered registry of generators. -/
structure SignalProcessor where
  generators : List SignalGenerator

/-- `SignalProcessor.AddGenerator`: appends to the registry. -/
def AddGenerator (sp : SignalProcessor) (gen : SignalGenerator) : SignalProcessor :=
  { generators := sp.generators ++ [gen] }

/-- `SignalProcessor.GenerateSignalVector`: one entry per registered
generator, in registry order. -/
noncomputable def GenerateSignalVector (sp : SignalProcessor) (logData : LogData) : List ℝ :=
  sp.generators.map (fun gen => GenerateSignal gen logData)

/-- `OracleLogParser.ParseLog` (dbparsers.go): fails iff the raw value is
not a map; otherwise fills every field from the Oracle key set, defaulting
each absent or mistyped entry to its zero value. -/
def OracleLogParser.ParseLog (rawLog : GoValue) : Except String LogData :=
  match rawLog with
  | .vMap logMap =>
    .ok { Operation := getString logMap "action"
          Table := getString logMap "table_name"
          RowIdentifier := getString logMap "rowid"
          Columns := getStrList logMap "changed_columns"
          Timestamp := getTime logMap "timestamp"
          Before := getMap logMap "before_values"
          After := getMap logMap "after_values" }
  | _ => .error "invalid log format"

/-- `PostgresLogParser.ParseLog` (dbparsers.go): same shape with the
Postgres key set. -/
def PostgresLogParser.ParseLog (rawLog : GoValue) : Except String LogData :=
  match rawLog with
  | .vMap logMap =>
    .ok { Operation := getString logMap "operation"
          Table := getString logMap "table"
          RowIdentifier := getString logMap "primary_key"
          Columns := getStrList logMap "changed_columns"
          Timestamp := getTime logMap "timestamp"
          Before := getMap logMap "old_values"
          After := getMap logMap "new_values" }
  | _ => .error "invalid log format"

/-- `EncryptionType` constants (encryption.go); the underlying Go type is
a string. -/
def EncryptionTypeNone : String := "None"

def EncryptionTypeAES : String := "AES"

def EncryptionTypeChaCha20 : String := "ChaCha20"

/-- `EncryptionConfig` (encryption.go). `Percentage` and `KeySize` are Go
ints. -/
structure EncryptionConfig where
  Typ : String
  Percentage : Int
  AESMode : String
  KeySize : Int

/-- The concrete `Encryptor` implementations, each holding the random key
generated at construction time. -/
inductive Encryptor where
  | noneEnc : Encryptor
  | aesCBC : List Nat → Encryptor
  | aesCTR : List Nat → Encryptor
  | aesGCM : List Nat → Encryptor
  | chacha20 : List Nat → Encryptor

/-- The block-cipher/AEAD primitives from the Go standard library and
golang.org/x/crypto, abstracted: each maps (key, IV-or-nonce, input bytes)
to output bytes. The claims under verification depend only on how
encryption.go wraps these primitives, not on their internals, so the
theorems quantify over them. -/
structure CipherPrims where
  cbcEncrypt : List Nat → List Nat → List Nat → List Nat
  ctrStream : List Nat → List Nat → List Nat → List Nat
  gcmSeal : List Nat → List Nat → List Nat → List Nat
  chachaSeal : List Nat → List Nat → List Nat → List Nat

/-- A degenerate instantiation of the primitives, used only to state
closed concrete facts about code paths that do not depend on them. -/
def trivialPrims : CipherPrims :=
  { cbcEncrypt := fun _ _ data => data
    ctrStream := fun _ _ data => data
    gcmSeal := fun _ _ data => data
    chachaSeal := fun _ _ data => data }

/-- `io.ReadFull(crypto_rand.Reader, buf)` over the explicit randomness
stream: yields `len(buf)` bytes and the rest of the stream, or fails when
the source cannot supply them. -/
def readFull (n : Nat) (rng : List Nat) : Option (List Nat × List Nat) :=
  if n ≤ rng.length then some (rng.take n, rng.drop n) else none

/-- `padPKCS7` (encryption.go): appends `blockSize - len % blockSize`
bytes, each equal to the padding length. -/
def padPKCS7 (data : List Nat) (blockSize : Nat) : List Nat :=
  data ++ List.replicate (blockSize - data.length % blockSize)
    (blockSize - data.length % blockSize)

/-- The standard base64 alphabet. -/
def base64Alphabet : List Char :=
  "ABCDEFGHIJKLMNOPQRSTUVWXYZabcdefghijklmnopqrstuvwxyz0123456789+/".data

/-- One base64 digit. -/
def b64Char (n : Nat) : Char := base64Alphabet.getD n 'A'

/-- `base64.StdEncoding.EncodeToString`: standard base64 with padding. -/
def base64Encode : List Nat → String
  | [] => ""
  | [b1] => String.mk [b64Char (b1 / 4), b64Char (b1 % 4 * 16), '=', '=']
  | [b1, b2] =>
    String.mk [b64Char (b1 / 4), b64Char (b1 % 4 * 16 + b2 / 16), b64Char (b2 % 16 * 4), '=']
  | b1 :: b2 :: b3 :: rest =>
    String.mk [b64Char (b1 / 4), b64Char (b1 % 4 * 16 + b2 / 16),
      b64Char (b2 % 16 * 4 + b3 / 64), b64Char (b3 % 64)] ++ base64Encode rest

/-- `Encrypt` for each `Encryptor` (encryption.go), returning Go's
`(string, error)` pair plus the rest of the randomness stream. Key-length
validation mirrors `aes.NewCipher` / `chacha20poly1305.New`; the IV/nonce
is drawn per call; the IV/nonce is prepended to the primitive's output,
base64-encoded, and tagged with the algorithm and key bits. -/
def Encrypt (P : CipherPrims) :
    Encryptor → String → List Nat → (String × Option String) × List Nat
  | .noneEnc, plaintext, rng => ((plaintext, none), rng)
  | .aesCBC key, plaintext, rng =>
    if key.length = 16 ∨ key.length = 24 ∨ key.length = 32 then
      match readFull 16 rng with
      | some (iv, rest) =>
        (("AES-" ++ toString (key.length * 8) ++ "-CBC:" ++
            base64Encode (iv ++ P.cbcEncrypt key iv (padPKCS7 (strBytes plaintext) 16)),
          none), rest)
      | none => (("", some "EOF"), rng)
    else (("", some "crypto/aes: invalid key size"), rng)
  | .aesCTR key, plaintext, rng =>
    if key.length = 16 ∨ key.length = 24 ∨ key.length = 32 then
      match readFull 16 rng with
      | some (iv, rest) =>
        (("AES-" ++ toString (key.length * 8) ++ "-CTR:" ++
            base64Encode (iv ++ P.ctrStream key iv (strBytes plaintext)),
          none), rest)
      | none => (("", some "EOF"), rng)
    else (("", some "crypto/aes: invalid key size"), rng)
  | .aesGCM key, plaintext, rng =>
    if key.length = 16 ∨ key.length = 24 ∨ key.length = 32 then
      match readFull 12 rng with
      | some (nonce, rest) =>
        (("AES-" ++ toString (key.length * 8) ++ "-GCM:" ++
            base64Encode (nonce ++ P.gcmSeal key nonce (strBytes plaintext)),
          none), rest)
      | none => (("", some "EOF"), rng)
    else (("", some "crypto/aes: invalid key size"), rng)
  | .chacha20 key, plaintext, rng =>
    if key.length = 32 then
      match readFull 12 rng with
      | some (nonce, rest) =>
        (("ChaCha20:" ++ base64Encode (nonce ++ P.chachaSeal key nonce (strBytes plaintext)),
          none), rest)
      | none => (("", some "EOF"), rng)
    else (("", some "chacha20poly1305: bad key length"), rng)

/-- The effective AES key size in bytes after the 0-defaults-to-32 rule. -/
def effectiveKeySize (config : EncryptionConfig) : Int :=
  if config.KeySize = 0 then 32 else config.KeySize

/-- `GetEncryptor` (encryption.go): dispatches on `config.Typ`; for AES,
`KeySize` 0 defaults to 32, sizes outside 16/24/32 are rejected, and the
mode dispatches with the empty mode defaulting to CBC; unknown modes and
types are rejected. Key material is drawn from the randomness stream by
the constructors (`NewAESCBCEncryptor` etc.). -/
def GetEncryptor (config : EncryptionConfig) (rng : List Nat) :
    Except String (Encryptor × List Nat) :=
  if config.Typ = EncryptionTypeNone then .ok (.noneEnc, rng)
  else if config.Typ = EncryptionTypeAES then
    if effectiveKeySize config ≠ 16 ∧ effectiveKeySize config ≠ 24 ∧
        effectiveKeySize config ≠ 32 then
      .error "invalid AES key size: must be 16, 24, or 32 bytes"
    else if config.AESMode = "CBC" ∨ config.AESMode = "" then
      match readFull (effectiveKeySize config).toNat rng with
      | some (key, rest) => .ok (.aesCBC key, rest)
      | none => .error "EOF"
    else if config.AESMode = "CTR" then
      match readFull (effectiveKeySize config).toNat rng with
      | some (key, rest) => .ok (.aesCTR key, rest)
      | none => .error "EOF"
    else if config.AESMode = "GCM" then
      match readFull (effectiveKeySize config).toNat rng with
      | some (key, rest) => .ok (.aesGCM key, rest)
      | none => .error "EOF"
    else .error ("unsupported AES mode: " ++ config.AESMode)
  else if config.Typ = EncryptionTypeChaCha20 then
    match readFull 32 rng with
    | some (key, rest) => .ok (.chacha20 key, rest)
    | none => .error "EOF"
  else .error ("unsupported encryption type: " ++ config.Typ)

/-- `MaybeEncrypt` (encryption.go): identity (no error) when the type is
`None` or the percentage is non-positive; identity (no error) when the
percentage is below 100 and the drawn `rand.Intn(100)` value is at least
the percentage; otherwise builds the encryptor and encrypts. A
`GetEncryptor` failure returns the original value together with the
error; an `Encrypt` failure returns whatever `Encrypt` returned. -/
def MaybeEncrypt (P : CipherPrims) (value : String) (config : EncryptionConfig)
    (draw : Nat) (rng : List Nat) : (String × Option String) × List Nat :=
  if config.Typ = EncryptionTypeNone ∨ config.Percentage ≤ 0 then ((value, none), rng)
  else if config.Percentage < 100 ∧ config.Percentage ≤ (draw : Int) then ((value, none), rng)
  else
    match GetEncryptor config rng with
    | .error e => ((value, some e), rng)
    | .ok (enc, rest) => Encrypt P enc value rest

/-- The algorithm tag an encrypting configuration is expected to put in
front of its output. -/
def algTag (config : EncryptionConfig) : String :=
  if config.Typ = EncryptionTypeChaCha20 then "ChaCha20:"
  else
    "AES-" ++ toString ((effectiveKeySize config).toNat * 8) ++ "-" ++
      (if config.AESMode = "" then "CBC" else config.AESMode) ++ ":"

/-- A configuration that names a supported encrypting algorithm: either
ChaCha20, or AES with an accepted (possibly defaulted) key size and an
accepted (possibly defaulted) mode. -/
def supportedEncCfg (config : EncryptionConfig) : Prop :=
  config.Typ = EncryptionTypeChaCha20 ∨
    (config.Typ = EncryptionTypeAES ∧
      (effectiveKeySize config = 16 ∨ effectiveKeySize config = 24 ∨
        effectiveKeySize config = 32) ∧
      (config.AESMode = "" ∨ config.AESMode = "CBC" ∨ config.AESMode = "CTR" ∨
        config.AESMode = "GCM"))

instance (config : EncryptionConfig) : Decidable (supportedEncCfg config) := by
  unfold supportedEncCfg
  infer_instance

/-- Kernel-computable form of `levListDistance`, used to evaluate the
distance on concrete inputs. -/
def levListDistanceF (s1 s2 : List Nat) : Nat :=
  if s1.length = 0 then s2.length
  else if s2.length = 0 then s1.length
  else levMatrixF s1 s2 (s1.length + s2.length) s1.length s2.length

theorem levMatrixF_eq_levMatrix (s1 s2 : List Nat) :
    ∀ f i j, i + j ≤ f → levMatrixF s1 s2 f i j = levMatrix s1 s2 i j := by
  intro f
  induction f with
  | zero =>
    intro i j h
    match i, j with
    | i, 0 => simp [levMatrixF, levMatrix]
    | 0, j + 1 => simp [levMatrixF, levMatrix]
    | i + 1, j + 1 => omega
  | succ f ih =>
    intro i j h
    match i, j with
    | i, 0 => simp [levMatrixF, levMatrix]
    | 0, j + 1 => simp [levMatrixF, levMatrix]
    | i + 1, j + 1 =>
      rw [levMatrixF, levMatrix.eq_3, ih i (j + 1) (by omega), ih (i + 1) j (by omega),
        ih i j (by omega)]

theorem levMatrix_symm (s1 s2 : List Nat) :
    ∀ i j, levMatrix s1 s2 i j = levMatrix s2 s1 j i := by
  intro i
  induction i with
  | zero =>
    intro j
    match j with
    | 0 => simp [levMatrix]
    | j + 1 => simp [levMatrix]
  | succ i ih =>
    intro j
    induction j with
    | zero => simp [levMatrix]
    | succ j ihj =>
      rw [levMatrix.eq_3, levMatrix.eq_3, ih (j + 1), ihj, ih j]
      rcases eq_or_ne (s1.getD i 0) (s2.getD j 0) with h | h
      · rw [if_pos h, if_pos h.symm]
        simp only [min3]
        split_ifs <;> omega
      · rw [if_neg h, if_neg (Ne.symm h)]
        simp only [min3]
        split_ifs <;> omega

theorem levMatrix_self_diag (s : List Nat) : ∀ i, levMatrix s s i i = 0 := by
  intro i
  induction i with
  | zero => simp [levMatrix]
  | succ i ih =>
    rw [levMatrix.eq_3, if_pos rfl, ih]
    simp only [min3]
    split_ifs <;> omega

theorem levMatrix_le (s1 s2 : List Nat) : ∀ i j, levMatrix s1 s2 i j ≤ i + j := by
  intro i
  induction i with
  | zero =>
    intro j
    match j with
    | 0 => simp [levMatrix]
    | j + 1 => simp [levMatrix]
  | succ i ih =>
    intro j
    induction j with
    | zero => simp [levMatrix]
    | succ j ihj =>
      rw [levMatrix.eq_3]
      have h1 := ih (j + 1)
      have h2 := ih j
      have h3 := ihj
      simp only [min3]
      split_ifs <;> omega

theorem levListDistanceF_eq (s1 s2 : List Nat) :
    levListDistanceF s1 s2 = levListDistance s1 s2 := by
  unfold levListDistanceF levListDistance
  split_ifs with h1 h2
  · rfl
  · rfl
  · exact levMatrixF_eq_levMatrix s1 s2 (s1.length + s2.length) s1.length s2.length le_rfl

theorem levListDistance_symm (s1 s2 : List Nat) :
    levListDistance s1 s2 = levListDistance s2 s1 := by
  unfold levListDistance
  split_ifs with h1 h2 h3 <;> try omega
  exact levMatrix_symm s1 s2 s1.length s2.length

theorem levListDistance_self (s : List Nat) : levListDistance s s = 0 := by
  unfold levListDistance
  split_ifs with h1
  · omega
  · exact levMatrix_self_diag s s.length

theorem levListDistance_le (s1 s2 : List Nat) :
    levListDistance s1 s2 ≤ s1.length + s2.length := by
  unfold levListDistance
  split_ifs with h1 h2 <;> try omega
  exact levMatrix_le s1 s2 s1.length s2.length

/-- C2: the edit-distance function is symmetric, satisfies d(a,a) = 0,
satisfies d(a,b) ≤ len(a) + len(b) (Go's len, the byte length), and
d("kitten","sitting") = 3. -/
theorem levenshteinDistance_algebraic :
    (∀ a b : String, levenshteinDistance a b = levenshteinDistance b a) ∧
    (∀ a : String, levenshteinDistance a a = 0) ∧
    (∀ a b : String,
      levenshteinDistance a b ≤ (strBytes a).length + (strBytes b).length) ∧
    levenshteinDistance "kitten" "sitting" = 3 := by
  refine ⟨fun a b => levListDistance_symm _ _, fun a => levListDistance_self _,
    fun a b => levListDistance_le _ _, ?_⟩
  rw [levenshteinDistance, ← levListDistanceF_eq]
  decide

/-- C10: the distance is computed over UTF-8 bytes, not runes: replacing
the single character "α" (bytes 206, 177) by the single character "é"
(bytes 195, 169) is one rune-level substitution (rune distance 1) but
costs 2 byte edits, so the byte-level result strictly exceeds the
rune-level edit distance. -/
theorem levenshteinDistance_byte_level :
    strBytes "α" = [206, 177] ∧ strBytes "é" = [195, 169] ∧
    strRunes "α" = [945] ∧ strRunes "é" = [233] ∧
    levenshteinDistance "α" "é" = 2 ∧
    levListDistance (strRunes "α") (strRunes "é") = 1 ∧
    levListDistance (strRunes "α") (strRunes "é") < levenshteinDistance "α" "é" := by
  have h1 : levenshteinDistance "α" "é" = 2 := by
    rw [levenshteinDistance, ← levListDistanceF_eq]
    decide
  have h2 : levListDistance (strRunes "α") (strRunes "é") = 1 := by
    rw [← levListDistanceF_eq]
    decide
  exact ⟨by decide, by decide, by decide, by decide, h1, h2, by omega⟩

/-- C6: `MaybeEncrypt` is the identity (value returned unchanged, no
error, no randomness consumed) when the configured type is `None` or the
percentage is non-positive. -/
theorem maybeEncrypt_identity (P : CipherPrims) (value : String)
    (config : EncryptionConfig) (draw : Nat) (rng : List Nat)
    (h : config.Typ = EncryptionTypeNone ∨ config.Percentage ≤ 0) :
    MaybeEncrypt P value config draw rng = ((value, none), rng) := by
  unfold MaybeEncrypt
  rw [if_pos h]

/-- Witness for C6 at a concrete input: the `None` type and the
percentage-0 configuration both pass the value through. -/
theorem maybeEncrypt_identity_witness :
    MaybeEncrypt trivialPrims "v" ⟨"None", 50, "", 0⟩ 7 [1, 2, 3] =
      (("v", none), [1, 2, 3]) ∧
    MaybeEncrypt trivialPrims "v" ⟨"AES", 0, "", 0⟩ 7 [1, 2, 3] =
      (("v", none), [1, 2, 3]) :=
  ⟨maybeEncrypt_identity trivialPrims "v" ⟨"None", 50, "", 0⟩ 7 [1, 2, 3] (Or.inl rfl),
    maybeEncrypt_identity trivialPrims "v" ⟨"AES", 0, "", 0⟩ 7 [1, 2, 3]
      (Or.inr (by decide))⟩

/-- C4 counterexample: with the default AES configuration at percentage
100 and an exhausted randomness source, `MaybeEncrypt` does NOT swallow
the failure: key-generation failure returns the original value together
with the error, and IV-generation failure returns the empty string (not
the original value) together with the error. -/
theorem maybeEncrypt_failure_propagates :
    MaybeEncrypt trivialPrims "secret" ⟨"AES", 100, "", 0⟩ 0 [] =
      (("secret", some "EOF"), []) ∧
    (MaybeEncrypt trivialPrims "secret" ⟨"AES", 100, "", 0⟩ 0
        (List.replicate 32 0)).1 = ("", some "EOF") := by
  constructor <;> decide

/-- C4 amended: when randomness fails during `MaybeEncrypt` on the
default AES configuration at percentage 100, the error is propagated to
the caller; the original value accompanies it only when the key
generation inside `GetEncryptor` failed, while an IV-generation failure
inside `Encrypt` yields the empty string instead of the original value. -/
theorem maybeEncrypt_entropy_exhaustion (P : CipherPrims) (value : String)
    (config : EncryptionConfig) (draw : Nat) (rng : List Nat)
    (htyp : config.Typ = EncryptionTypeAES) (hmode : config.AESMode = "")
    (hkey : config.KeySize = 0) (hp : config.Percentage = 100) :
    (rng.length < 32 →
      MaybeEncrypt P value config draw rng = ((value, some "EOF"), rng)) ∧
    (32 ≤ rng.length → rng.length < 48 →
      (MaybeEncrypt P value config draw rng).1 = ("", some "EOF")) := by
  have hne : ¬(config.Typ = EncryptionTypeNone ∨ config.Percentage ≤ 0) := by
    rw [htyp, hp]
    decide
  have hsel : ¬(config.Percentage < 100 ∧ config.Percentage ≤ (draw : Int)) := by
    rw [hp]
    intro hc
    exact absurd hc.1 (lt_irrefl 100)
  have hAN : ("AES" : String) ≠ "None" := by decide
  have h32 : Int.toNat 32 = 32 := rfl
  have heff : effectiveKeySize config = 32 := by
    unfold effectiveKeySize
    rw [hkey]
    norm_num
  constructor
  · intro hshort
    have hread : readFull 32 rng = none := by
      unfold readFull
      rw [if_neg (by omega)]
    have hget : GetEncryptor config rng = .error "EOF" := by
      unfold GetEncryptor
      rw [htyp, hmode, heff]
      norm_num [EncryptionTypeNone, EncryptionTypeAES, hAN, h32, hread]
    unfold MaybeEncrypt
    rw [if_neg hne, if_neg hsel, hget]
  · intro hlong hshort
    have hread : readFull 32 rng = some (rng.take 32, rng.drop 32) := by
      unfold readFull
      rw [if_pos hlong]
    have hget : GetEncryptor config rng = .ok (.aesCBC (rng.take 32), rng.drop 32) := by
      unfold GetEncryptor
      rw [htyp, hmode, heff]
      norm_num [EncryptionTypeNone, EncryptionTypeAES, hAN, h32, hread]
    have hklen : (rng.take 32).length = 32 := by
      rw [List.length_take]
      omega
    have hiv : readFull 16 (rng.drop 32) = none := by
      unfold readFull
      rw [if_neg]
      rw [List.length_drop]
      omega
    unfold MaybeEncrypt
    rw [if_neg hne, if_neg hsel, hget]
    norm_num [Encrypt, hklen, hiv]

/-- Witness for the amended C4 at a concrete input: an empty randomness
source makes key generation fail and the error is returned alongside the
original value. -/
theorem maybeEncrypt_entropy_exhaustion_witness :
    MaybeEncrypt trivialPrims "fixture" ⟨"AES", 100, "", 0⟩ 3 [] =
      (("fixture", some "EOF"), []) :=
  (maybeEncrypt_entropy_exhaustion trivialPrims "fixture" ⟨"AES", 100, "", 0⟩ 3 []
    rfl rfl rfl rfl).1 (by decide)

/-- C8 counterexample: configurations the claim says must be rejected
before any value is processed are in fact silently accepted. With
`Percentage = -5` (outside [0,100]) the value passes through with no
error; with AES `KeySize = 20` and `Percentage = 50`, a value whose draw
is not selected (draw 99) passes through with no error ever raised. -/
theorem invalidConfig_not_rejected :
    MaybeEncrypt trivialPrims "v" ⟨"AES", -5, "", 20⟩ 0 [] = (("v", none), []) ∧
    MaybeEncrypt trivialPrims "v" ⟨"AES", 50, "", 20⟩ 99 [] = (("v", none), []) := by
  constructor <;> decide

/-- C8 amended: configuration validation is lazy and partial. A negative
percentage acts as 0 (pass-through, no error); a percentage above 100
acts as 100 (the random draw is never consulted); an AES key size that is
invalid after the 0-defaults-to-32 rule produces the
invalid-configuration error only when a value is actually selected for
encryption, and values skipped by the percentage draw pass through with
no error at all. -/
theorem invalidConfig_lazy (P : CipherPrims) (value : String)
    (config : EncryptionConfig) (draw : Nat) (rng : List Nat) :
    (config.Percentage < 0 →
      MaybeEncrypt P value config draw rng = ((value, none), rng)) ∧
    (100 ≤ config.Percentage → ∀ d1 d2 : Nat,
      MaybeEncrypt P value config d1 rng = MaybeEncrypt P value config d2 rng) ∧
    (config.Typ = EncryptionTypeAES →
      ¬(effectiveKeySize config = 16 ∨ effectiveKeySize config = 24 ∨
          effectiveKeySize config = 32) →
      (100 ≤ config.Percentage →
        MaybeEncrypt P value config draw rng =
          ((value, some "invalid AES key size: must be 16, 24, or 32 bytes"), rng)) ∧
      (0 < config.Percentage → config.Percentage < 100 →
        config.Percentage ≤ (draw : Int) →
        MaybeEncrypt P value config draw rng = ((value, none), rng))) := by
  have hAN : ("AES" : String) ≠ "None" := by decide
  refine ⟨?_, ?_, ?_⟩
  · intro h
    unfold MaybeEncrypt
    rw [if_pos (Or.inr (by omega))]
  · intro h d1 d2
    unfold MaybeEncrypt
    by_cases hT : (config.Typ = EncryptionTypeNone ∨ config.Percentage ≤ 0)
    · rw [if_pos hT, if_pos hT]
    · rw [if_neg hT, if_neg hT, if_neg (by rintro ⟨hc, -⟩; omega),
        if_neg (by rintro ⟨hc, -⟩; omega)]
  · intro htyp hbad
    have hne : ∀ hp0 : 0 < config.Percentage,
        ¬(config.Typ = EncryptionTypeNone ∨ config.Percentage ≤ 0) := by
      intro hp0 hc
      rcases hc with hc | hc
      · rw [htyp] at hc
        exact hAN hc
      · omega
    have hget : GetEncryptor config rng =
        .error "invalid AES key size: must be 16, 24, or 32 bytes" := by
      unfold GetEncryptor
      rw [htyp]
      rw [if_neg (by decide), if_pos rfl, if_pos (by push_neg at hbad; exact hbad)]
    constructor
    · intro hp
      unfold MaybeEncrypt
      rw [if_neg (hne (by omega)), if_neg (by rintro ⟨hc, -⟩; omega), hget]
    · intro hp0 hp100 hdraw
      unfold MaybeEncrypt
      rw [if_neg (hne hp0), if_pos ⟨hp100, hdraw⟩]

/-- Witness for the amended C8 at concrete inputs. -/
theorem invalidConfig_lazy_witness :
    MaybeEncrypt trivialPrims "w" ⟨"ChaCha20", -3, "", 0⟩ 0 [] = (("w", none), []) ∧
    MaybeEncrypt trivialPrims "w" ⟨"AES", 200, "", 20⟩ 0 [] =
      (("w", some "invalid AES key size: must be 16, 24, or 32 bytes"), []) :=
  ⟨(invalidConfig_lazy trivialPrims "w" ⟨"ChaCha20", -3, "", 0⟩ 0 []).1 (by decide),
    ((invalidConfig_lazy trivialPrims "w" ⟨"AES", 200, "", 20⟩ 0 []).2.2 rfl
      (by decide)).1 (by decide)⟩

/-- C9: `GetEncryptor` rejects AES with `KeySize` 20 and AES with mode
"ECB" (whatever the key size), and with the zero-valued fields it
defaults to a 32-byte key in CBC mode. -/
theorem getEncryptor_config_validation (config : EncryptionConfig) (rng : List Nat) :
    (config.Typ = EncryptionTypeAES → config.KeySize = 20 →
      GetEncryptor config rng =
        .error "invalid AES key size: must be 16, 24, or 32 bytes") ∧
    (config.Typ = EncryptionTypeAES → config.AESMode = "ECB" →
      ∃ e, GetEncryptor config rng = .error e) ∧
    (config.Typ = EncryptionTypeAES → config.KeySize = 0 → config.AESMode = "" →
      32 ≤ rng.length →
      GetEncryptor config rng = .ok (.aesCBC (rng.take 32), rng.drop 32)) := by
  refine ⟨?_, ?_, ?_⟩
  · intro htyp hkey
    have heff : effectiveKeySize config = 20 := by
      unfold effectiveKeySize
      rw [hkey]
      norm_num
    unfold GetEncryptor
    rw [htyp, heff]
    rw [if_neg (by decide), if_pos rfl, if_pos (by norm_num)]
  · intro htyp hmode
    unfold GetEncryptor
    rw [htyp, hmode]
    rw [if_neg (by decide), if_pos rfl]
    by_cases hv : (effectiveKeySize config ≠ 16 ∧ effectiveKeySize config ≠ 24 ∧
        effectiveKeySize config ≠ 32)
    · exact ⟨"invalid AES key size: must be 16, 24, or 32 bytes", by rw [if_pos hv]⟩
    · exact ⟨"unsupported AES mode: " ++ "ECB", by
        rw [if_neg hv, if_neg (by decide), if_neg (by decide), if_neg (by decide)]⟩
  · intro htyp hkey hmode hlen
    have heff : effectiveKeySize config = 32 := by
      unfold effectiveKeySize
      rw [hkey]
      norm_num
    have hread : readFull 32 rng = some (rng.take 32, rng.drop 32) := by
      unfold readFull
      rw [if_pos hlen]
    have hAN : ("AES" : String) ≠ "None" := by decide
    have h32 : Int.toNat 32 = 32 := rfl
    unfold GetEncryptor
    rw [htyp, hmode, heff]
    norm_num [EncryptionTypeNone, EncryptionTypeAES, hAN, h32, hread]

/-- Witness for C9 at concrete configurations. -/
theorem getEncryptor_config_validation_witness :
    GetEncryptor ⟨"AES", 100, "", 20⟩ [] =
      .error "invalid AES key size: must be 16, 24, or 32 bytes" ∧
    (∃ e, GetEncryptor ⟨"AES", 100, "ECB", 0⟩ [] = .error e) ∧
    GetEncryptor ⟨"AES", 100, "", 0⟩ (List.replicate 32 7) =
      .ok (.aesCBC ((List.replicate 32 7).take 32), (List.replicate 32 7).drop 32) :=
  ⟨(getEncryptor_config_validation ⟨"AES", 100, "", 20⟩ []).1 rfl rfl,
    (getEncryptor_config_validation ⟨"AES", 100, "ECB", 0⟩ []).2.1 rfl rfl,
    (getEncryptor_config_validation ⟨"AES", 100, "", 0⟩ (List.replicate 32 7)).2.2
      rfl rfl rfl (by decide)⟩

theorem getD_map_lt {α β : Type} (f : α → β) (l : List α) (d : β) :
    ∀ i, ∀ h : i < l.length, (l.map f).getD i d = f (l.get ⟨i, h⟩) := by
  induction l with
  | nil =>
    intro i h
    exact absurd h (by simp)
  | cons a t ih =>
    intro i h
    cases i with
    | zero => rfl
    | succ n => simpa using ih n (Nat.lt_of_succ_lt_succ h)

theorem generateSignal_default (g : SignalGenerator) (logData : LogData)
    (h : asStringOpt (mapGet logData.Before (genField g)) = none ∨
      asStringOpt (mapGet logData.After (genField g)) = none) :
    GenerateSignal g logData = 0 := by
  cases g with
  | fieldLevenshtein f =>
    rcases hb : asStringOpt (mapGet logData.Before f) with _ | b <;>
      rcases ha : asStringOpt (mapGet logData.After f) with _ | a <;>
      simp [GenerateSignal, genField, hb, ha] at h ⊢
  | entropyChange f =>
    rcases hb : asStringOpt (mapGet logData.Before f) with _ | b <;>
      rcases ha : asStringOpt (mapGet logData.After f) with _ | a <;>
      simp [GenerateSignal, genField, hb, ha] at h ⊢

/-- C1: for every input and every processor with n registered generators,
`GenerateSignalVector` returns a vector of length exactly n, position i
holding the signal of the i-th registered generator (registry order); and
whenever the field a generator references is absent from `Before`/`After`
or is not a string, that position is 0.0 rather than an error. -/
theorem generateSignalVector_spec (sp : SignalProcessor) (logData : LogData) :
    (GenerateSignalVector sp logData).length = sp.generators.length ∧
    ∀ i, ∀ h : i < sp.generators.length,
      (GenerateSignalVector sp logData).getD i 0 =
        GenerateSignal (sp.generators.get ⟨i, h⟩) logData ∧
      ((asStringOpt (mapGet logData.Before (genField (sp.generators.get ⟨i, h⟩))) = none ∨
        asStringOpt (mapGet logData.After (genField (sp.generators.get ⟨i, h⟩))) = none) →
        (GenerateSignalVector sp logData).getD i 0 = 0) := by
  refine ⟨List.length_map _ _, ?_⟩
  intro i h
  have hmap : (GenerateSignalVector sp logData).getD i 0 =
      GenerateSignal (sp.generators.get ⟨i, h⟩) logData :=
    getD_map_lt _ sp.generators 0 i h
  exact ⟨hmap, fun hnone => hmap.trans (generateSignal_default _ _ hnone)⟩

/-- Witness for C1: a one-generator processor over an input whose maps
lack the field produces the vector [0.0]. -/
theorem generateSignalVector_spec_witness :
    (GenerateSignalVector ⟨[.fieldLevenshtein "bio"]⟩
        ⟨"UPDATE", "users", "row1", [], 0, [], []⟩).length = 1 ∧
    (GenerateSignalVector ⟨[.fieldLevenshtein "bio"]⟩
        ⟨"UPDATE", "users", "row1", [], 0, [], []⟩).getD 0 0 = 0 := by
  refine ⟨?_, ?_⟩
  · exact (generateSignalVector_spec ⟨[.fieldLevenshtein "bio"]⟩
      ⟨"UPDATE", "users", "row1", [], 0, [], []⟩).1
  · exact ((generateSignalVector_spec ⟨[.fieldLevenshtein "bio"]⟩
      ⟨"UPDATE", "users", "row1", [], 0, [], []⟩).2 0 (by decide)).2 (Or.inl rfl)

theorem getString_of_none (m : List (String × GoValue)) (k : String)
    (h : asStringOpt (mapGet m k) = none) : getString m k = "" := by
  unfold getString
  rw [h]
  rfl

theorem getStrList_of_none (m : List (String × GoValue)) (k : String)
    (h : ∀ l, mapGet m k ≠ some (.vStrList l)) : getStrList m k = [] := by
  unfold getStrList
  rcases hm : mapGet m k with _ | v
  · rfl
  · cases v with
    | vStrList l => exact absurd hm (h l)
    | vStr s => rfl
    | vTime t => rfl
    | vMap mm => rfl
    | vOther => rfl

theorem getTime_of_none (m : List (String × GoValue)) (k : String)
    (h : ∀ t, mapGet m k ≠ some (.vTime t)) : getTime m k = 0 := by
  unfold getTime
  rcases hm : mapGet m k with _ | v
  · rfl
  · cases v with
    | vTime t => exact absurd hm (h t)
    | vStr s => rfl
    | vStrList l => rfl
    | vMap mm => rfl
    | vOther => rfl

theorem getMap_of_none (m : List (String × GoValue)) (k : String)
    (h : ∀ mm, mapGet m k ≠ some (.vMap mm)) : getMap m k = [] := by
  unfold getMap
  rcases hm : mapGet m k with _ | v
  · rfl
  · cases v with
    | vMap mm => exact absurd hm (h mm)
    | vStr s => rfl
    | vStrList l => rfl
    | vTime t => rfl
    | vOther => rfl

/-- C7: both dialect parsers fail (with the malformed-record error, and
no LogData) exactly on raw records that are not key/value mappings; on a
mapping they always succeed, and every absent or mistyped expected key is
replaced by that field's zero value. -/
theorem parseLog_malformed_or_total :
    (∀ rawLog : GoValue, (∀ m, rawLog ≠ .vMap m) →
      OracleLogParser.ParseLog rawLog = .error "invalid log format" ∧
      PostgresLogParser.ParseLog rawLog = .error "invalid log format") ∧
    (∀ m, (OracleLogParser.ParseLog (.vMap m)).isOk = true ∧
      (PostgresLogParser.ParseLog (.vMap m)).isOk = true) ∧
    (∀ m d, OracleLogParser.ParseLog (.vMap m) = .ok d →
      (asStringOpt (mapGet m "action") = none → d.Operation = "") ∧
      (asStringOpt (mapGet m "table_name") = none → d.Table = "") ∧
      (asStringOpt (mapGet m "rowid") = none → d.RowIdentifier = "") ∧
      ((∀ l, mapGet m "changed_columns" ≠ some (.vStrList l)) → d.Columns = []) ∧
      ((∀ t, mapGet m "timestamp" ≠ some (.vTime t)) → d.Timestamp = 0) ∧
      ((∀ mm, mapGet m "before_values" ≠ some (.vMap mm)) → d.Before = []) ∧
      ((∀ mm, mapGet m "after_values" ≠ some (.vMap mm)) → d.After = [])) ∧
    (∀ m d, PostgresLogParser.ParseLog (.vMap m) = .ok d →
      (asStringOpt (mapGet m "operation") = none → d.Operation = "") ∧
      (asStringOpt (mapGet m "table") = none → d.Table = "") ∧
      (asStringOpt (mapGet m "primary_key") = none → d.RowIdentifier = "") ∧
      ((∀ l, mapGet m "changed_columns" ≠ some (.vStrList l)) → d.Columns = []) ∧
      ((∀ t, mapGet m "timestamp" ≠ some (.vTime t)) → d.Timestamp = 0) ∧
      ((∀ mm, mapGet m "old_values" ≠ some (.vMap mm)) → d.Before = []) ∧
      ((∀ mm, mapGet m "new_values" ≠ some (.vMap mm)) → d.After = [])) := by
  refine ⟨?_, ?_, ?_, ?_⟩
  · intro rawLog hnm
    cases rawLog with
    | vMap m => exact absurd rfl (hnm m)
    | vStr s => exact ⟨rfl, rfl⟩
    | vStrList l => exact ⟨rfl, rfl⟩
    | vTime t => exact ⟨rfl, rfl⟩
    | vOther => exact ⟨rfl, rfl⟩
  · intro m
    exact ⟨rfl, rfl⟩
  · intro m d hd
    cases hd
    exact ⟨fun h => getString_of_none _ _ h, fun h => getString_of_none _ _ h,
      fun h => getString_of_none _ _ h, fun h => getStrList_of_none _ _ h,
      fun h => getTime_of_none _ _ h, fun h => getMap_of_none _ _ h,
      fun h => getMap_of_none _ _ h⟩
  · intro m d hd
    cases hd
    exact ⟨fun h => getString_of_none _ _ h, fun h => getString_of_none _ _ h,
      fun h => getString_of_none _ _ h, fun h => getStrList_of_none _ _ h,
      fun h => getTime_of_none _ _ h, fun h => getMap_of_none _ _ h,
      fun h => getMap_of_none _ _ h⟩

/-- Witness for C7 at concrete inputs: a bare string is rejected by both
parsers, an empty mapping parses successfully, and a mistyped key yields
the zero value. -/
theorem parseLog_witness :
    OracleLogParser.ParseLog (.vStr "not a map") = .error "invalid log format" ∧
    (PostgresLogParser.ParseLog (.vMap [])).isOk = true ∧
    ∀ d, OracleLogParser.ParseLog (.vMap [("action", .vTime 9)]) = .ok d →
      d.Operation = "" :=
  ⟨(parseLog_malformed_or_total.1 (.vStr "not a map")
      (fun _ h => GoValue.noConfusion h)).1,
    (parseLog_malformed_or_total.2.1 []).2,
    fun d hd =>
      (parseLog_malformed_or_total.2.2.1 [("action", .vTime 9)] d hd).1 rfl⟩

theorem string_tag_fold (t mo tail : String) (hmo : "-" ++ mo ++ ":" = tail) :
    "AES-" ++ t ++ "-" ++ mo ++ ":" = "AES-" ++ t ++ tail := by
  rw [String.append_assoc ("AES-" ++ t) "-" mo,
    String.append_assoc ("AES-" ++ t) ("-" ++ mo) ":", hmo]

/-- C5: with percentage 100, a supported encrypting configuration and a
randomness source that can supply key and IV/nonce material,
`MaybeEncrypt` always succeeds with a string of the form
algorithm-tag ++ base64 payload; in particular, whenever the input value
does not itself start with that tag, the output differs from the input. -/
theorem maybeEncrypt_p100_tagged (P : CipherPrims) (value : String)
    (config : EncryptionConfig) (draw : Nat) (rng : List Nat)
    (hsup : supportedEncCfg config) (hp : config.Percentage = 100)
    (hr : 48 ≤ rng.length) :
    (∃ payload rest, MaybeEncrypt P value config draw rng =
      ((algTag config ++ base64Encode payload, none), rest)) ∧
    ((∀ suffix, value ≠ algTag config ++ suffix) →
      (MaybeEncrypt P value config draw rng).1.1 ≠ value) := by
  have hAN : ("AES" : String) ≠ "None" := by decide
  have hCN : ("ChaCha20" : String) ≠ "None" := by decide
  have hmain : ∃ payload rest, MaybeEncrypt P value config draw rng =
      ((algTag config ++ base64Encode payload, none), rest) := by
    have hne : ¬(config.Typ = EncryptionTypeNone ∨ config.Percentage ≤ 0) := by
      rintro (hc | hc)
      · rcases hsup with h | ⟨h, -, -⟩ <;> rw [h] at hc
        · exact hCN hc
        · exact hAN hc
      · omega
    have hsel : ¬(config.Percentage < 100 ∧ config.Percentage ≤ (draw : Int)) := by
      rintro ⟨hc, -⟩
      omega
    unfold MaybeEncrypt
    rw [if_neg hne, if_neg hsel]
    rcases hsup with hcc | ⟨htyp, hsize, hmode⟩
    · have hread : readFull 32 rng = some (rng.take 32, rng.drop 32) := by
        unfold readFull
        rw [if_pos (by omega)]
      have hget : GetEncryptor config rng =
          .ok (.chacha20 (rng.take 32), rng.drop 32) := by
        unfold GetEncryptor
        rw [hcc]
        rw [if_neg (by decide), if_neg (by decide), if_pos rfl, hread]
      have hklen : (rng.take 32).length = 32 := by
        rw [List.length_take]
        omega
      have hnon : readFull 12 (rng.drop 32) =
          some ((rng.drop 32).take 12, (rng.drop 32).drop 12) := by
        unfold readFull
        rw [if_pos (by rw [List.length_drop]; omega)]
      have htag : algTag config = "ChaCha20:" := by
        unfold algTag
        rw [hcc]
        rw [if_pos rfl]
      rw [hget]
      simp only [Encrypt]
      rw [hklen, if_pos rfl, hnon, htag]
      exact ⟨_, _, rfl⟩
    · have hknat : (effectiveKeySize config).toNat = 16 ∨
          (effectiveKeySize config).toNat = 24 ∨
          (effectiveKeySize config).toNat = 32 := by
        rcases hsize with h | h | h <;> rw [h] <;> decide
      have hvalid : ¬(effectiveKeySize config ≠ 16 ∧ effectiveKeySize config ≠ 24 ∧
          effectiveKeySize config ≠ 32) := by
        rintro ⟨h16, h24, h32⟩
        rcases hsize with h | h | h <;> contradiction
      have hread : readFull (effectiveKeySize config).toNat rng =
          some (rng.take (effectiveKeySize config).toNat,
            rng.drop (effectiveKeySize config).toNat) := by
        unfold readFull
        rw [if_pos (by rcases hknat with h | h | h <;> omega)]
      have hklen : (rng.take (effectiveKeySize config).toNat).length =
          (effectiveKeySize config).toNat := by
        rw [List.length_take]
        rcases hknat with h | h | h <;> omega
      have hkey3 : (rng.take (effectiveKeySize config).toNat).length = 16 ∨
          (rng.take (effectiveKeySize config).toNat).length = 24 ∨
          (rng.take (effectiveKeySize config).toNat).length = 32 := by
        rw [hklen]
        exact hknat
      have hiv16 : readFull 16 (rng.drop (effectiveKeySize config).toNat) =
          some ((rng.drop (effectiveKeySize config).toNat).take 16,
            (rng.drop (effectiveKeySize config).toNat).drop 16) := by
        unfold readFull
        rw [if_pos (by rw [List.length_drop]; rcases hknat with h | h | h <;> omega)]
      have hiv12 : readFull 12 (rng.drop (effectiveKeySize config).toNat) =
          some ((rng.drop (effectiveKeySize config).toNat).take 12,
            (rng.drop (effectiveKeySize config).toNat).drop 12) := by
        unfold readFull
        rw [if_pos (by rw [List.length_drop]; rcases hknat with h | h | h <;> omega)]
      rcases hmode with hm | hm | hm | hm
      · have hget : GetEncryptor config rng =
            .ok (.aesCBC (rng.take (effectiveKeySize config).toNat),
              rng.drop (effectiveKeySize config).toNat) := by
          unfold GetEncryptor
          rw [htyp, hm]
          rw [if_neg (by decide), if_pos rfl, if_neg hvalid, if_pos (by decide), hread]
        have htag : algTag config =
            "AES-" ++ toString ((effectiveKeySize config).toNat * 8) ++ "-CBC:" := by
          unfold algTag
          rw [htyp, hm]
          rw [if_neg (by decide), if_pos rfl]
          exact string_tag_fold _ "CBC" "-CBC:" (by decide)
        rw [hget]
        simp only [Encrypt]
        rw [if_pos hkey3, hiv16, hklen, htag]
        exact ⟨_, _, rfl⟩
      · have hget : GetEncryptor config rng =
            .ok (.aesCBC (rng.take (effectiveKeySize config).toNat),
              rng.drop (effectiveKeySize config).toNat) := by
          unfold GetEncryptor
          rw [htyp, hm]
          rw [if_neg (by decide), if_pos rfl, if_neg hvalid, if_pos (by decide), hread]
        have htag : algTag config =
            "AES-" ++ toString ((effectiveKeySize config).toNat * 8) ++ "-CBC:" := by
          unfold algTag
          rw [htyp, hm]
          rw [if_neg (by decide), if_neg (by decide)]
          exact string_tag_fold _ "CBC" "-CBC:" (by decide)
        rw [hget]
        simp only [Encrypt]
        rw [if_pos hkey3, hiv16, hklen, htag]
        exact ⟨_, _, rfl⟩
      · have hget : GetEncryptor config rng =
            .ok (.aesCTR (rng.take (effectiveKeySize config).toNat),
              rng.drop (effectiveKeySize config).toNat) := by
          unfold GetEncryptor
          rw [htyp, hm]
          rw [if_neg (by decide), if_pos rfl, if_neg hvalid, if_neg (by decide),
            if_pos rfl, hread]
        have htag : algTag config =
            "AES-" ++ toString ((effectiveKeySize config).toNat * 8) ++ "-CTR:" := by
          unfold algTag
          rw [htyp, hm]
          rw [if_neg (by decide), if_neg (by decide)]
          exact string_tag_fold _ "CTR" "-CTR:" (by decide)
        rw [hget]
        simp only [Encrypt]
        rw [if_pos hkey3, hiv16, hklen, htag]
        exact ⟨_, _, rfl⟩
      · have hget : GetEncryptor config rng =
            .ok (.aesGCM (rng.take (effectiveKeySize config).toNat),
              rng.drop (effectiveKeySize config).toNat) := by
          unfold GetEncryptor
          rw [htyp, hm]
          rw [if_neg (by decide), if_pos rfl, if_neg hvalid, if_neg (by decide),
            if_neg (by decide), if_pos rfl, hread]
        have htag : algTag config =
            "AES-" ++ toString ((effectiveKeySize config).toNat * 8) ++ "-GCM:" := by
          unfold algTag
          rw [htyp, hm]
          rw [if_neg (by decide), if_neg (by decide)]
          exact string_tag_fold _ "GCM" "-GCM:" (by decide)
        rw [hget]
        simp only [Encrypt]
        rw [if_pos hkey3, hiv12, hklen, htag]
        exact ⟨_, _, rfl⟩
  refine ⟨hmain, ?_⟩
  obtain ⟨payload, rest, heq⟩ := hmain
  rw [heq]
  intro hns he
  exact hns (base64Encode payload) he.symm

/-- Witness for C5 at a concrete configuration: ChaCha20 at percentage
100 over a 48-byte randomness source produces a "ChaCha20:"-tagged
base64 string. -/
theorem maybeEncrypt_p100_tagged_witness :
    ∃ payload rest,
      MaybeEncrypt trivialPrims "hello" ⟨"ChaCha20", 100, "", 0⟩ 0
          (List.replicate 48 0) =
        ((algTag ⟨"ChaCha20", 100, "", 0⟩ ++ base64Encode payload, none), rest) :=
  (maybeEncrypt_p100_tagged trivialPrims "hello" ⟨"ChaCha20", 100, "", 0⟩ 0
    (List.replicate 48 0) (Or.inl rfl) rfl (by decide)).1

theorem sum_map_const_real {α : Type} (l : List α) (x : ℝ) :
    (l.map (fun _ => x)).sum = l.length * x := by
  induction l with
  | nil => simp
  | cons a t ih =>
    simp [ih]
    ring

theorem sum_map_const_nat {α : Type} (l : List α) (m : Nat) :
    (l.map (fun _ => m)).sum = l.length * m := by
  induction l with
  | nil => simp
  | cons a t ih =>
    simp [ih]
    ring

/-- On a nonempty string whose UTF-8 encoding is one byte per symbol and
whose k distinct symbols all occur equally often, `calculateEntropy`
returns exactly log2 k. -/
theorem calculateEntropy_uniform (s : String) (m : Nat) (hne : s ≠ "")
    (hsingle : (strBytes s).length = s.data.length)
    (hcount : ∀ c ∈ s.data, s.data.count c = m) :
    calculateEntropy s = Real.logb 2 (s.data.dedup.length) := by
  have hd : s.data ≠ [] := by
    intro h
    apply hne
    cases s with
    | mk data =>
      subst h
      rfl
  obtain ⟨c, hc⟩ := List.exists_mem_of_ne_nil s.data hd
  have hm1 : 0 < m := by
    have := List.count_pos_iff.mpr hc
    rw [hcount c hc] at this
    exact this
  have hk1 : 0 < s.data.dedup.length :=
    List.length_pos.mpr (List.ne_nil_of_mem (List.mem_dedup.mpr hc))
  have hsum : (s.data.dedup.map fun x => s.data.count x).sum = s.data.length :=
    List.sum_map_count_dedup_eq_length s.data
  have hconst : (s.data.dedup.map fun x => s.data.count x) =
      s.data.dedup.map (fun _ => m) := by
    apply List.map_congr_left
    intro x hx
    exact hcount x (List.mem_dedup.mp hx)
  have hkm : s.data.dedup.length * m = s.data.length := by
    rw [hconst, sum_map_const_nat] at hsum
    exact hsum
  have hm0 : ((m : ℝ)) ≠ 0 := Nat.cast_ne_zero.mpr (by omega)
  have hk0 : ((s.data.dedup.length : ℕ) : ℝ) ≠ 0 := Nat.cast_ne_zero.mpr (by omega)
  have hn' : ((s.data.length : ℕ) : ℝ) = (s.data.dedup.length : ℝ) * (m : ℝ) := by
    exact_mod_cast hkm.symm
  have hq : (m : ℝ) / (s.data.length : ℝ) = 1 / (s.data.dedup.length : ℝ) := by
    rw [hn']
    field_simp
    ring
  rw [calculateEntropy, if_neg hne, hsingle]
  have hmapped : (s.data.dedup.map (fun r =>
      ((s.data.count r : ℝ) / ((s.data.length : ℕ) : ℝ)) *
        Real.logb 2 ((s.data.count r : ℝ) / ((s.data.length : ℕ) : ℝ)))) =
      s.data.dedup.map (fun _ =>
        (1 / (s.data.dedup.length : ℝ)) *
          Real.logb 2 (1 / (s.data.dedup.length : ℝ))) := by
    apply List.map_congr_left
    intro x hx
    rw [hcount x (List.mem_dedup.mp hx), hq]
  rw [hmapped, sum_map_const_real]
  rw [one_div, Real.logb_inv]
  field_simp

/-- C3 counterexample: `calculateEntropy` divides rune counts by the BYTE
length of the string, so its value on the single-symbol string "α"
(one rune, two UTF-8 bytes) is 1/2, not log2(1) = 0 as the claim requires
for a string of one equally-frequent distinct symbol. -/
theorem calculateEntropy_multibyte_counterexample :
    calculateEntropy "α" = 1 / 2 ∧ Real.logb 2 1 = 0 ∧ ((1 : ℝ) / 2) ≠ 0 := by
  refine ⟨?_, Real.logb_one, by norm_num⟩
  rw [calculateEntropy, if_neg (by decide)]
  rw [show ("α").data = ['α'] from by decide]
  rw [show (['α'].dedup) = ['α'] from by decide]
  rw [show (strBytes "α").length = 2 from by decide]
  simp only [List.map, List.sum_cons, List.sum_nil]
  rw [show List.count 'α' ['α'] = 1 from by decide]
  norm_num
  rw [show ((1 : ℝ) / 2) = ((2 : ℝ))⁻¹ from by norm_num, Real.logb_inv,
    Real.logb_self_eq_one (by norm_num)]
  norm_num

/-- C3 amended: restricted to strings whose symbols are all single-byte
(so Go's byte length equals the symbol count), the entropy of a string of
k equally frequent distinct symbols is exactly log2 k; H("") = 0,
H("aaaa") = 0, H("abcd") = 2, and the entropy-delta generator on
Before["x"]="aaaa", After["x"]="abcd" yields signal 2.0. -/
theorem entropy_uniform_amended :
    (∀ (s : String) (m : Nat), s ≠ "" → (strBytes s).length = s.data.length →
      (∀ c ∈ s.data, s.data.count c = m) →
      calculateEntropy s = Real.logb 2 (s.data.dedup.length)) ∧
    calculateEntropy "" = 0 ∧
    calculateEntropy "aaaa" = 0 ∧
    calculateEntropy "abcd" = 2 ∧
    GenerateSignal (.entropyChange "x")
      ⟨"UPDATE", "t", "r", [], 0, [("x", .vStr "aaaa")], [("x", .vStr "abcd")]⟩ = 2 := by
  have haaaa : calculateEntropy "aaaa" = 0 := by
    rw [calculateEntropy_uniform "aaaa" 4 (by decide) (by decide) (by decide)]
    rw [show ("aaaa").data.dedup.length = 1 from by decide]
    norm_num
  have habcd : calculateEntropy "abcd" = 2 := by
    rw [calculateEntropy_uniform "abcd" 1 (by decide) (by decide) (by decide)]
    rw [show ("abcd").data.dedup.length = 4 from by decide]
    rw [show (((4 : ℕ) : ℝ)) = (2 : ℝ) ^ (2 : ℕ) from by norm_num, Real.logb_pow,
      Real.logb_self_eq_one (by norm_num)]
    norm_num
  refine ⟨calculateEntropy_uniform, by rw [calculateEntropy, if_pos rfl], haaaa,
    habcd, ?_⟩
  have hb : asStringOpt (mapGet [("x", GoValue.vStr "aaaa")] "x") = some "aaaa" := rfl
  have ha : asStringOpt (mapGet [("x", GoValue.vStr "abcd")] "x") = some "abcd" := rfl
  simp only [GenerateSignal, hb, ha]
  rw [haaaa, habcd]
  norm_num

/-- Witness for the amended C3 at a concrete input: "ab" has two
equally frequent single-byte symbols, so its entropy is log2 of the
number of its distinct symbols. -/
theorem entropy_uniform_amended_witness :
    calculateEntropy "ab" = Real.logb 2 (("ab").data.dedup.length) :=
  entropy_uniform_amended.1 "ab" 1 (by decide) (by decide) (by decide)
